import Mathlib

set_option maxRecDepth 8000

/-! Verification of the HybridSearch retrieval pipeline (src/main.py).

Text is modelled as lists of characters.  External collaborators (PDF and
web extraction, the sentence tokenizer, the embedding model, the retriever's
ranked query, and the generative model) are parameters of the pipeline,
collected in the `Collab` structure.  The sparse BM25 encoder
(pinecone_text's `BM25Encoder`, which is library code and not part of this
repository's sources) is modelled from the spec; see the doc comments on
`fitBM25` and `sparseEncode`. -/

/-- Text is modelled as a list of characters. -/
abbrev Str := List Char

/-- Whitespace characters recognised by Python's `str.split()` (ASCII part). -/
def isWs (c : Char) : Bool :=
  c == ' ' || c == '\t' || c == '\n' || c == '\r' || c == '\x0b' || c == '\x0c'

/-- Helper for `splitWs`: walks the text accumulating the current word
(in reverse), emitting a word whenever a whitespace run begins or the
text ends. -/
def splitWsAux : Str → Str → List Str
  | [], acc => if acc = [] then [] else [acc.reverse]
  | c :: cs, acc =>
    if isWs c then
      (if acc = [] then splitWsAux cs [] else acc.reverse :: splitWsAux cs [])
    else splitWsAux cs (c :: acc)

/-- Python's `text.split()` with no argument: split on runs of whitespace,
discarding empty pieces. -/
def splitWs (t : Str) : List Str := splitWsAux t []

/-- `joinSep sep ws` is Python's `sep.join(ws)` for a one-character
separator. -/
def joinSep (sep : Char) : List Str → Str
  | [] => []
  | [w] => w
  | w :: w' :: ws => w ++ sep :: joinSep sep (w' :: ws)

/-- Line 84 of src/main.py: `text = " ".join(text.split())` — collapse all
whitespace runs to single spaces. -/
def collapseWs (t : Str) : Str := joinSep ' ' (splitWs t)

/-- Line 87's filter condition: `len(sentence.strip()) > 0`, i.e. the
sentence contains at least one non-whitespace character. -/
def hasContent (s : Str) : Bool := s.any (fun c => !isWs c)

/-- Lines 81-88 of src/main.py, `preprocess_text`: collapse whitespace,
split into sentences with the tokenizer `tok` (nltk's `sent_tokenize`,
an external collaborator passed as a parameter), drop sentences that are
empty after stripping. -/
def preprocessText (tok : Str → List Str) (text : Str) : List Str :=
  (tok (collapseWs text)).filter hasContent

/-- Decidable check that `s` is an initial segment of `l`. -/
def isPrefixL : Str → Str → Bool
  | [], _ => true
  | _ :: _, [] => false
  | a :: s, b :: l => a == b && isPrefixL s l

/-- Decidable check that `s` occurs contiguously inside `l` (no character
reordering: `s` is a contiguous substring of `l`). -/
def isSubstr (s : Str) : Str → Bool
  | [] => isPrefixL s []
  | c :: l => isPrefixL s (c :: l) || isSubstr s (c :: l).tail

/-- No two adjacent characters of `s` are both whitespace. -/
def noDoubleWs : Str → Bool
  | a :: b :: t => (!(isWs a && isWs b)) && noDoubleWs (b :: t)
  | _ => true

/-- Every whitespace character of `s` is a plain space. -/
def wsOnlySpace (s : Str) : Bool := s.all (fun c => !isWs c || c == ' ')

/-- A sentence is whitespace-collapsed: its only whitespace character is
the single space, and no two adjacent characters are whitespace. -/
def sentenceCollapsed (s : Str) : Bool := wsOnlySpace s && noDoubleWs s

/-- The suffix checked on line 93 of src/main.py. -/
def pdfExt : Str := ".pdf".data

/-- The prefixes checked on line 95 of src/main.py. -/
def httpPre : Str := "http://".data

def httpsPre : Str := "https://".data

/-- Line 93: `source.lower().endswith('.pdf')`. -/
def lowerEndsWithPdf (s : Str) : Bool := pdfExt.isSuffixOf (s.map Char.toLower)

/-- Line 95: `source.startswith("http://") or source.startswith("https://")`. -/
def startsWithHttp (s : Str) : Bool := httpPre.isPrefixOf s || httpsPre.isPrefixOf s

inductive Route where
  | pdf
  | web
  | unsupported
  deriving DecidableEq

/-- Lines 93-98 of src/main.py: the `if/elif/else` source routing of
`add_documents_to_retriever`.  The PDF check comes first. -/
def routeSource (s : Str) : Route :=
  if lowerEndsWithPdf s then Route.pdf
  else if startsWithHttp s then Route.web
  else Route.unsupported

/-- Corpus-wide lexical statistics of the sparse encoder: per-term document
frequency, total document count, and total token count (spec §3,
"Corpus Statistics"). -/
structure BM25Stats where
  docFreq : Str → Nat
  nDocs : Nat
  sumDocLen : Nat

/-- Modelled from the spec: the sparse encoder's tokenization of a chunk
into terms (the encoder itself is pinecone_text library code, absent from
src/); modelled as whitespace splitting. -/
def tokensOf (text : Str) : List Str := splitWs text

/-- Modelled from the spec: `BM25Encoder.fit` (pinecone_text library code,
absent from src/).  Spec §9 records that the source behaviour refits the
statistics per ingestion call replace-in-place rather than merging: the
new statistics are computed from the given corpus alone and the previous
statistics `prev` are discarded. -/
def fitBM25 (prev : BM25Stats) (corpus : List Str) : BM25Stats :=
  { docFreq := fun t => (corpus.filter (fun d => (tokensOf d).contains t)).length
    nDocs := corpus.length
    sumDocLen := (corpus.map (fun d => (tokensOf d).length)).foldl (fun a b => a + b) 0 }

/-- Number of occurrences of term `t` in the chunk `text`. -/
def termFreq (text t : Str) : Nat := ((tokensOf text).filter (fun u => u == t)).length

/-- Modelled from the spec: the sparse encoder's `encode` (spec §4.2) —
deterministic given the current statistics, weight increasing in in-chunk
term frequency and decreasing in term document frequency (an
inverse-document-frequency-style scheme over `BM25Stats`, at a fixed-point
scale of 1000). -/
def sparseEncode (st : BM25Stats) (text : Str) : Str → Nat :=
  fun t => termFreq text t * ((st.nDocs + 1) * 1000 / (st.docFreq t + 1))

/-- The external collaborators of src/main.py, passed as parameters:
`scrape_pdf`, `scrape_webpage`, nltk's `sent_tokenize`, the HuggingFace
embedding model, the Pinecone retriever's ranked query (`retriever.invoke`,
returning chunk texts in ranking order), and the Groq chat model. -/
structure Collab where
  extractPdf : Str → Str
  extractWeb : Str → Str
  sentTokenize : Str → List Str
  embed : Str → List Int
  invoke : Str → List Str
  llm : Str → Str

/-- A stored chunk record: its text, its sparse vector (encoded under the
statistics current at encode time) and its dense vector (spec §3). -/
structure ChunkRec where
  text : Str
  sparse : Str → Nat
  dense : List Int

/-- The shared mutable state of src/main.py: the `bm25_encoder`'s corpus
statistics and the Pinecone index contents. -/
structure SysState where
  stats : BM25Stats
  index : List ChunkRec

inductive IngestError where
  | unsupportedSource
  | emptyContent
  deriving DecidableEq

inductive Event where
  | extract
  | normalize
  | encode
  | upsert
  | fitStats
  deriving DecidableEq

/-- The order in which a successful `add_documents_to_retriever` call
performs its stages: extraction (lines 93-98), normalization (line 101),
then `retriever.add_texts` (line 107: encode then upsert), then
`bm25_encoder.fit` (line 108). -/
def fullTrace : List Event :=
  [Event.extract, Event.normalize, Event.encode, Event.upsert, Event.fitStats]

/-- The text extracted for a source, following the routing of lines 93-98:
`none` when the source is unsupported. -/
def extractedText (C : Collab) (s : Str) : Option Str :=
  match routeSource s with
  | Route.pdf => some (C.extractPdf s)
  | Route.web => some (C.extractWeb s)
  | Route.unsupported => none

/-- Line 107, `retriever.add_texts(sentences)`: each sentence is encoded
(sparse vector under the statistics current at this point, dense vector via
the embedding collaborator) and upserted into the index. -/
def addTexts (C : Collab) (st : SysState) (sentences : List Str) : SysState :=
  { st with
    index := st.index ++ sentences.map
      (fun s => { text := s, sparse := sparseEncode st.stats s, dense := C.embed s }) }

/-- Lines 91-108 of src/main.py, `add_documents_to_retriever`: route the
source, extract, normalize, fail on unsupported format or empty content,
otherwise `add_texts` (encode + upsert) and then `fit`.  On success the
event trace is returned alongside the new state. -/
def addDocumentsToRetriever (C : Collab) (st : SysState) (source : Str) :
    Except IngestError (SysState × List Event) :=
  match extractedText C source with
  | none => Except.error IngestError.unsupportedSource
  | some text =>
    let sentences := preprocessText C.sentTokenize text
    if sentences = [] then Except.error IngestError.emptyContent
    else
      let st1 := addTexts C st sentences
      Except.ok ({ st1 with stats := fitBM25 st1.stats sentences }, fullTrace)

/-- One worker task of `add_documents_batch`: run
`add_documents_to_retriever`; an exception is captured by the future
machinery and leaves the shared state as the task found it. -/
def ingestStep (C : Collab) (st : SysState) (s : Str) : SysState :=
  match addDocumentsToRetriever C st s with
  | Except.ok (st', _) => st'
  | Except.error _ => st

/-- Lines 128-132 of src/main.py, `add_documents_batch`:
`executor.map(add_documents_to_retriever, sources)` submits one task per
source (submission is eager and independent, so every source is processed);
the returned iterator is never consumed, so the function returns only the
final shared state and surfaces no per-source result. -/
def addDocumentsBatch (C : Collab) (st : SysState) (sources : List Str) : SysState :=
  sources.foldl (ingestStep C) st

/-- The per-source outcomes held inside the futures created by
`executor.map` — what a consumer of the iterator would observe.  The code
never consumes them. -/
def batchOutcomes (C : Collab) (st : SysState) : List Str → List (Except IngestError Unit)
  | [] => []
  | s :: rest =>
    match addDocumentsToRetriever C st s with
    | Except.ok (st', _) => Except.ok () :: batchOutcomes C st' rest
    | Except.error e => Except.error e :: batchOutcomes C st rest

/-- Line 152 of src/main.py. -/
def successMsg : Str := "Documents successfully added to the retriever.".data

/-- Lines 149-154 of src/main.py: the main-loop handler for choice 1 calls
`add_documents_batch(sources)` inside `try/except`; since
`add_documents_batch` returns without raising (worker exceptions stay in
the unconsumed futures), the `except` branch is dead and the success
message is always printed. -/
def mainAddDocuments (C : Collab) (st : SysState) (sources : List Str) : SysState × Str :=
  (addDocumentsBatch C st sources, successMsg)

/-- The batch of lines 128-132 under an explicit schedule: the sources'
critical sections (encode, upsert, fit) land in the order given by the
index list `sched`.  The code takes no lock, so any order is possible. -/
def addDocumentsBatchSched (C : Collab) (st : SysState) (sources : List Str)
    (sched : List Nat) : SysState :=
  (sched.filterMap (fun i => sources.get? i)).foldl (ingestStep C) st

/-- Line 125 of src/main.py. -/
def noRelevantInfoMsg : Str := "No relevant information found in the database.".data

/-- The fixed text inserted between context and question on line 122. -/
def promptMid : Str := "\nQuestion: ".data

/-- The fixed text after the question on line 122. -/
def promptEnd : Str := "\nAnswer:".data

/-- Lines 111-125 of src/main.py, `query_vector_database`: invoke the
retriever; on empty results return the fixed message, otherwise join the
retrieved texts with newlines, build the prompt
`context + "\nQuestion: " + q + "\nAnswer:"`, and call the generative
collaborator once, returning its output verbatim.  The second component
counts the generative-collaborator invocations. -/
def queryVectorDatabase (C : Collab) (q : Str) : Str × Nat :=
  match C.invoke q with
  | [] => (noRelevantInfoMsg, 0)
  | r :: rs => (C.llm (joinSep '\n' (r :: rs) ++ promptMid ++ q ++ promptEnd), 1)

/-- Collaborators for concrete runs: empty extractions, identity
tokenizer, empty embeddings, empty retrieval, identity generative model. -/
def noCollab : Collab :=
  { extractPdf := fun _ => []
    extractWeb := fun _ => []
    sentTokenize := fun t => [t]
    embed := fun _ => []
    invoke := fun _ => []
    llm := fun p => p }

def sentAlphaT : Str := "alpha".data

def sentBetaT : Str := "beta".data

/-- Statistics with no recorded documents. -/
def statsEmpty : BM25Stats := { docFreq := fun _ => 0, nDocs := 0, sumDocLen := 0 }

def stEmpty : SysState := { stats := statsEmpty, index := [] }

/-- A state whose statistics record five prior documents containing none of
the test terms (standing for the pre-fitted `BM25Encoder().default()`
statistics). -/
def stPrior : SysState :=
  { stats := { docFreq := fun _ => 0, nDocs := 5, sumDocLen := 40 }, index := [] }

/-- Collaborators whose PDF extraction yields the text "alpha". -/
def collabC2 : Collab := { noCollab with extractPdf := fun _ => sentAlphaT }

def srcPdf : Str := "doc.pdf".data

def srcNotes : Str := "notes.txt".data

def srcHttpPdf : Str := "http://example.com/a.pdf".data

def webTxt : Str := "web page text".data

def srcA : Str := "a.pdf".data

def srcB : Str := "b.pdf".data

/-- Collaborators for a two-source batch: source `a.pdf` extracts to
"alpha", every other source to "beta". -/
def collabAB : Collab :=
  { noCollab with extractPdf := fun s => if s = srcA then sentAlphaT else sentBetaT }

/-- The result of ingesting `doc.pdf` (extracting to "alpha") from the
prior state. -/
def c2res : Except IngestError (SysState × List Event) :=
  addDocumentsToRetriever collabC2 stPrior srcPdf

def c2trace : List Event :=
  match c2res with
  | Except.ok (_, tr) => tr
  | Except.error _ => []

/-- The weight of term "alpha" in the sparse vector stored for the single
ingested chunk. -/
def c2stored : Nat :=
  match c2res with
  | Except.ok (st, _) =>
    match st.index with
    | ch :: _ => ch.sparse sentAlphaT
    | [] => 0
  | Except.error _ => 0

/-- The weight of term "alpha" that the same chunk text receives when
encoded under the statistics in force after the ingest — the snapshot a
query issued after the upsert would use. -/
def c2query : Nat :=
  match c2res with
  | Except.ok (st, _) => sparseEncode st.stats sentAlphaT sentAlphaT
  | Except.error _ => 0

def qHello : Str := "hello".data

def docSky : Str := "sky blue".data

def docGrass : Str := "grass green".data

/-- Collaborators for query runs with two ranked results and an identity
generative model. -/
def collabQ : Collab :=
  { noCollab with invoke := fun _ => [docSky, docGrass] }

/-- The identity sentence tokenizer, used to instantiate the normalizer
theorem. -/
def tokId : Str → List Str := fun t => [t]

def txtAB : Str := "a \t  b".data

/-! ### Helper lemmas about whitespace splitting and joining -/

/-- Every word emitted by `splitWsAux` is non-empty and whitespace-free,
provided the accumulator holds only non-whitespace characters. -/
theorem lem_splitWsAux_sound (cs : Str) : ∀ (acc : Str), (∀ c ∈ acc, isWs c = false) →
    ∀ w ∈ splitWsAux cs acc, w ≠ [] ∧ ∀ c ∈ w, isWs c = false := by
  induction cs with
  | nil =>
    intro acc hacc w hw
    simp only [splitWsAux] at hw
    by_cases h : acc = []
    · rw [if_pos h] at hw
      simp at hw
    · rw [if_neg h] at hw
      simp at hw
      subst hw
      refine ⟨by simpa using h, ?_⟩
      intro c hc
      exact hacc c (by simpa using hc)
  | cons c cs ih =>
    intro acc hacc w hw
    simp only [splitWsAux] at hw
    by_cases hws : isWs c = true
    · rw [if_pos hws] at hw
      by_cases h : acc = []
      · rw [if_pos h] at hw
        exact ih [] (by simp) w hw
      · rw [if_neg h] at hw
        rcases List.mem_cons.mp hw with hw1 | hw2
        · subst hw1
          refine ⟨by simpa using h, ?_⟩
          intro x hx
          exact hacc x (by simpa using hx)
        · exact ih [] (by simp) w hw2
    · rw [if_neg hws] at hw
      have hc : isWs c = false := by simpa using hws
      refine ih (c :: acc) ?_ w hw
      intro x hx
      rcases List.mem_cons.mp hx with h1 | h2
      · subst h1; exact hc
      · exact hacc x h2

/-- Every word produced by `splitWs` is non-empty and whitespace-free. -/
theorem lem_splitWs_words (t : Str) : ∀ w ∈ splitWs t, w ≠ [] ∧ ∀ c ∈ w, isWs c = false :=
  lem_splitWsAux_sound t [] (by simp)

/-- A character of `joinSep sep ws` is the separator or comes from a word. -/
theorem lem_mem_joinSep (sep : Char) (ws : List Str) (c : Char) :
    c ∈ joinSep sep ws → c = sep ∨ ∃ w, w ∈ ws ∧ c ∈ w := by
  induction ws with
  | nil => intro hc; simp [joinSep] at hc
  | cons w ws ih =>
    cases ws with
    | nil =>
      intro hc
      exact Or.inr ⟨w, by simp, by simpa [joinSep] using hc⟩
    | cons w' ws' =>
      intro hc
      rw [show joinSep sep (w :: w' :: ws') = w ++ sep :: joinSep sep (w' :: ws') from rfl] at hc
      rcases List.mem_append.mp hc with h1 | h2
      · exact Or.inr ⟨w, by simp, h1⟩
      · rcases List.mem_cons.mp h2 with h3 | h4
        · exact Or.inl h3
        · rcases ih h4 with h5 | ⟨x, hx1, hx2⟩
          · exact Or.inl h5
          · exact Or.inr ⟨x, by simp [hx1], hx2⟩

/-- A whitespace-free string has no two adjacent whitespace characters. -/
theorem lem_ndw_of_no_ws (w : Str) (h : ∀ c ∈ w, isWs c = false) : noDoubleWs w = true := by
  induction w with
  | nil => rfl
  | cons a t ih =>
    cases t with
    | nil => rfl
    | cons b t' =>
      have ht := ih (fun c hc => h c (by simp [hc]))
      have ha : isWs a = false := h a (by simp)
      simp only [noDoubleWs, ha, Bool.false_and, Bool.not_false, Bool.true_and]
      exact ht

/-- Prepending whitespace-free characters preserves `noDoubleWs`. -/
theorem lem_ndw_append_nowsLeft (xs ys : Str) (hxs : ∀ c ∈ xs, isWs c = false)
    (hys : noDoubleWs ys = true) : noDoubleWs (xs ++ ys) = true := by
  induction xs with
  | nil => simpa using hys
  | cons a xs ih =>
    have ha : isWs a = false := hxs a (by simp)
    have ih' := ih (fun c hc => hxs c (by simp [hc]))
    cases xs with
    | nil =>
      cases ys with
      | nil => rfl
      | cons b ys' =>
        simp only [List.nil_append, List.cons_append, noDoubleWs, ha, Bool.false_and,
          Bool.not_false, Bool.true_and]
        exact hys
    | cons a' xs' =>
      simp only [List.cons_append, noDoubleWs, ha, Bool.false_and, Bool.not_false,
        Bool.true_and]
      simpa using ih'

/-- The tail of a `noDoubleWs` string satisfies `noDoubleWs`. -/
theorem lem_ndw_tail (a : Char) (t : Str) (h : noDoubleWs (a :: t) = true) :
    noDoubleWs t = true := by
  cases t with
  | nil => rfl
  | cons b t' =>
    simp only [noDoubleWs, Bool.and_eq_true] at h
    exact h.2

/-- `noDoubleWs` restricts to suffixes. -/
theorem lem_ndw_append_right (xs ys : Str) (h : noDoubleWs (xs ++ ys) = true) :
    noDoubleWs ys = true := by
  induction xs with
  | nil => simpa using h
  | cons a xs ih =>
    rw [List.cons_append] at h
    exact ih (lem_ndw_tail a (xs ++ ys) h)

/-- `noDoubleWs` restricts to prefixes. -/
theorem lem_ndw_append_left (xs ys : Str) (h : noDoubleWs (xs ++ ys) = true) :
    noDoubleWs xs = true := by
  induction xs with
  | nil => rfl
  | cons a xs ih =>
    cases xs with
    | nil => rfl
    | cons b xs' =>
      rw [List.cons_append, List.cons_append] at h
      simp only [noDoubleWs, Bool.and_eq_true] at h
      have h2 : noDoubleWs (b :: xs') = true := by
        apply ih
        rw [List.cons_append]
        exact h.2
      simp only [noDoubleWs, Bool.and_eq_true]
      exact ⟨h.1, h2⟩

/-- The head of `joinSep` of a list starting with a non-empty word is that
word's head character. -/
theorem lem_joinSep_head (sep a : Char) (t : Str) (ws : List Str) :
    ∃ rest, joinSep sep ((a :: t) :: ws) = a :: rest := by
  cases ws with
  | nil => exact ⟨t, rfl⟩
  | cons w' ws' => exact ⟨t ++ sep :: joinSep sep (w' :: ws'), rfl⟩

/-- Joining non-empty whitespace-free words with a single space yields a
string with no two adjacent whitespace characters. -/
theorem lem_ndw_joinSep (ws : List Str)
    (h : ∀ w ∈ ws, w ≠ [] ∧ ∀ c ∈ w, isWs c = false) :
    noDoubleWs (joinSep ' ' ws) = true := by
  induction ws with
  | nil => rfl
  | cons w ws ih =>
    cases ws with
    | nil => exact lem_ndw_of_no_ws w (h w (by simp)).2
    | cons w' ws' =>
      have hw := h w (by simp)
      have hw' := h w' (by simp)
      have hrec : noDoubleWs (joinSep ' ' (w' :: ws')) = true := by
        apply ih
        intro x hx
        exact h x (by simp [hx])
      show noDoubleWs (w ++ ' ' :: joinSep ' ' (w' :: ws')) = true
      apply lem_ndw_append_nowsLeft _ _ hw.2
      obtain ⟨a, t, ha⟩ : ∃ a t, w' = a :: t := by
        cases w' with
        | nil => exact absurd rfl hw'.1
        | cons a t => exact ⟨a, t, rfl⟩
      subst ha
      obtain ⟨rest, hr⟩ := lem_joinSep_head ' ' a t ws'
      rw [hr]
      rw [hr] at hrec
      have ha' : isWs a = false := hw'.2 a (by simp)
      simp only [noDoubleWs, ha', Bool.and_false, Bool.not_false, Bool.true_and]
      exact hrec

/-- The collapsed text contains only the plain space as whitespace. -/
theorem lem_collapse_wsOnly (t : Str) : wsOnlySpace (collapseWs t) = true := by
  rw [wsOnlySpace, List.all_eq_true]
  intro c hc
  rcases lem_mem_joinSep ' ' (splitWs t) c hc with h | ⟨w, hw, hcw⟩
  · subst h; rfl
  · have := (lem_splitWs_words t w hw).2 c hcw
    simp [this]

/-- The collapsed text has no two adjacent whitespace characters. -/
theorem lem_collapse_ndw (t : Str) : noDoubleWs (collapseWs t) = true :=
  lem_ndw_joinSep (splitWs t) (lem_splitWs_words t)

/-- A verified `isPrefixL` yields a decomposition. -/
theorem lem_isPrefixL_decomp (s : Str) : ∀ l : Str, isPrefixL s l = true → ∃ q, s ++ q = l := by
  induction s with
  | nil => intro l _; exact ⟨l, rfl⟩
  | cons a s ih =>
    intro l h
    cases l with
    | nil => simp [isPrefixL] at h
    | cons b l' =>
      simp only [isPrefixL, Bool.and_eq_true, beq_iff_eq] at h
      obtain ⟨q, hq⟩ := ih l' h.2
      exact ⟨q, by simp [h.1, hq]⟩

/-- A verified `isSubstr` yields a contiguous decomposition. -/
theorem lem_isSubstr_decomp (s : Str) : ∀ l : Str, isSubstr s l = true →
    ∃ p q, p ++ s ++ q = l := by
  intro l
  induction l with
  | nil =>
    intro h
    obtain ⟨q, hq⟩ := lem_isPrefixL_decomp s [] h
    exact ⟨[], q, by simp [hq]⟩
  | cons c l' ih =>
    intro h
    simp only [isSubstr, List.tail_cons, Bool.or_eq_true] at h
    rcases h with h1 | h2
    · obtain ⟨q, hq⟩ := lem_isPrefixL_decomp s (c :: l') h1
      exact ⟨[], q, by simp [hq]⟩
    · obtain ⟨p, q, hpq⟩ := ih h2
      exact ⟨c :: p, q, by simp [hpq]⟩

/-- `wsOnlySpace` restricts to contiguous substrings. -/
theorem lem_wsOnly_of_decomp (s p q l : Str) (hd : p ++ s ++ q = l)
    (h : wsOnlySpace l = true) : wsOnlySpace s = true := by
  rw [wsOnlySpace, List.all_eq_true] at h ⊢
  intro c hc
  refine h c ?_
  rw [← hd]
  simp [hc]

/-! ### Claim theorems -/

/-- C1: the claim states that `fit` is cumulative.  Evaluated at the
failing input: fitting the batch ["alpha"] records a document frequency of
1 for "alpha", but a subsequent fit of the batch ["beta"] resets that count
to 0 — the second fit discards the first batch's statistics, because
`BM25Encoder.fit` recomputes the statistics from the given corpus alone. -/
theorem c1_fit_not_cumulative :
    (fitBM25 statsEmpty [sentAlphaT]).docFreq sentAlphaT = 1 ∧
    (fitBM25 (fitBM25 statsEmpty [sentAlphaT]) [sentBetaT]).docFreq sentAlphaT = 0 :=
  ⟨rfl, rfl⟩

/-- C2 counterexample: ingesting "doc.pdf" (extracting to "alpha") from a
state with pre-fitted statistics runs the stages in the order extraction,
normalization, encode, upsert, and only then fit — and the sparse weight
stored for the chunk (6000, computed under the pre-fit statistics) differs
from the weight the same text receives under the post-ingest statistics
that answer later queries (1000).  The stored vector is therefore not
computed under the snapshot used by queries issued after the upsert. -/
theorem c2_counterexample : c2trace = fullTrace ∧ c2stored ≠ c2query :=
  ⟨rfl, by decide⟩

/-- C2 amended: for every successfully ingested source, the pipeline runs
extraction, then normalization, then encoding, then upsert, and only then
the sparse-statistics fit; every chunk stored by the call carries a sparse
vector computed under the corpus-statistics snapshot from *before* that
fit, while the statistics left for later queries are the refitted ones. -/
theorem c2_amended (C : Collab) (st : SysState) (s t : Str)
    (ht : extractedText C s = some t)
    (hne : preprocessText C.sentTokenize t ≠ []) :
    addDocumentsToRetriever C st s =
      Except.ok
        ({ stats := fitBM25 st.stats (preprocessText C.sentTokenize t)
           index := st.index ++ (preprocessText C.sentTokenize t).map
             (fun sn => { text := sn, sparse := sparseEncode st.stats sn
                          dense := C.embed sn }) },
         fullTrace) := by
  unfold addDocumentsToRetriever
  rw [ht]
  simp [hne, addTexts]

theorem c2_amended_witness :
    addDocumentsToRetriever collabC2 stPrior srcPdf =
      Except.ok
        ({ stats := fitBM25 stPrior.stats (preprocessText collabC2.sentTokenize sentAlphaT)
           index := stPrior.index ++ (preprocessText collabC2.sentTokenize sentAlphaT).map
             (fun sn => { text := sn, sparse := sparseEncode stPrior.stats sn
                          dense := collabC2.embed sn }) },
         fullTrace) :=
  c2_amended collabC2 stPrior srcPdf sentAlphaT (by rfl) (by decide)

/-- C3 counterexample: in a batch with an unsupported source followed by a
valid one, the future of the first source holds an error and the sibling
still succeeds (one chunk is indexed) — but the caller-visible output of
the batch is the unconditional success message: the per-source error is
never reported, because the iterator returned by `executor.map` is never
consumed. -/
theorem c3_counterexample :
    batchOutcomes collabC2 stPrior [srcNotes, srcPdf] =
      [Except.error IngestError.unsupportedSource, Except.ok ()] ∧
    (addDocumentsBatch collabC2 stPrior [srcNotes, srcPdf]).index.length = 1 ∧
    (mainAddDocuments collabC2 stPrior [srcNotes, srcPdf]).2 = successMsg :=
  ⟨rfl, rfl, rfl⟩

/-- C3 amended: a failure raised while processing one source is captured at
that source's boundary and never aborts the batch — every sibling source is
still processed, from an unchanged shared state — but the failure is not
reported: the batch always yields the success message. -/
theorem c3_amended (C : Collab) (st : SysState) (b : Str) (e : IngestError)
    (rest : List Str) (hb : addDocumentsToRetriever C st b = Except.error e) :
    addDocumentsBatch C st (b :: rest) = addDocumentsBatch C st rest ∧
    (mainAddDocuments C st (b :: rest)).2 = successMsg := by
  constructor
  · simp only [addDocumentsBatch, List.foldl_cons, ingestStep, hb]
  · rfl

theorem c3_amended_witness :
    addDocumentsBatch collabC2 stPrior (srcNotes :: [srcPdf]) =
      addDocumentsBatch collabC2 stPrior [srcPdf] ∧
    (mainAddDocuments collabC2 stPrior (srcNotes :: [srcPdf])).2 = successMsg :=
  c3_amended collabC2 stPrior srcNotes IngestError.unsupportedSource [srcPdf] (by rfl)

/-- C4: the claim states that `fit` and `upsert` run under mutual exclusion
so that the resulting statistics are a consistent accumulation over all
sources.  Evaluated at the failing input — the two-source batch
["a.pdf" → "alpha", "b.pdf" → "beta"] — under *either* order in which the
two sources' critical sections can land, the final statistics count only
the last-fitted source's terms: one of the two terms always ends with
document frequency 0, never the accumulation (1 and 1). -/
theorem c4_no_consistent_accumulation :
    (addDocumentsBatchSched collabAB stEmpty [srcA, srcB] [0, 1]).stats.docFreq sentAlphaT = 0 ∧
    (addDocumentsBatchSched collabAB stEmpty [srcA, srcB] [0, 1]).stats.docFreq sentBetaT = 1 ∧
    (addDocumentsBatchSched collabAB stEmpty [srcA, srcB] [1, 0]).stats.docFreq sentBetaT = 0 ∧
    (addDocumentsBatchSched collabAB stEmpty [srcA, srcB] [1, 0]).stats.docFreq sentAlphaT = 1 :=
  ⟨rfl, rfl, rfl, rfl⟩

/-- C5: a source that neither ends in ".pdf" (case-insensitively, as the
code checks) nor starts with "http://" or "https://" fails immediately
with the unsupported-source error, and a batch containing only it leaves
the shared state (index and corpus statistics) exactly unchanged; the code
contains no retry. -/
theorem c5_unsupported_source (C : Collab) (st : SysState) (s : Str)
    (h1 : lowerEndsWithPdf s = false) (h2 : startsWithHttp s = false) :
    addDocumentsToRetriever C st s = Except.error IngestError.unsupportedSource ∧
    addDocumentsBatch C st [s] = st := by
  have hr : routeSource s = Route.unsupported := by
    simp [routeSource, h1, h2]
  have he : extractedText C s = none := by
    simp [extractedText, hr]
  constructor
  · simp [addDocumentsToRetriever, he]
  · simp [addDocumentsBatch, ingestStep, addDocumentsToRetriever, he]

theorem c5_unsupported_source_witness :
    lowerEndsWithPdf srcNotes = false ∧ startsWithHttp srcNotes = false ∧
    (addDocumentsToRetriever noCollab stEmpty srcNotes =
        Except.error IngestError.unsupportedSource ∧
      addDocumentsBatch noCollab stEmpty [srcNotes] = stEmpty) :=
  ⟨by decide, by decide,
    c5_unsupported_source noCollab stEmpty srcNotes (by decide) (by decide)⟩

/-- C6: for a source whose routing succeeds and extracts to `t`, ingestion
raises the empty-content error exactly when normalization of `t` yields
zero surviving sentences; with at least one surviving sentence no such
error is raised. -/
theorem c6_empty_content (C : Collab) (st : SysState) (s t : Str)
    (ht : extractedText C s = some t) :
    (addDocumentsToRetriever C st s = Except.error IngestError.emptyContent ↔
      preprocessText C.sentTokenize t = []) := by
  unfold addDocumentsToRetriever
  rw [ht]
  by_cases h : preprocessText C.sentTokenize t = []
  · simp [h]
  · simp [h]

theorem c6_empty_content_witness :
    addDocumentsToRetriever noCollab stEmpty srcPdf =
        Except.error IngestError.emptyContent ↔
      preprocessText noCollab.sentTokenize [] = [] :=
  c6_empty_content noCollab stEmpty srcPdf [] (by rfl)

/-- C7: when the retriever returns zero chunks, the query pipeline returns
the fixed no-relevant-information message without error, and the generative
collaborator is invoked zero times. -/
theorem c7_empty_results (C : Collab) (q : Str) (h : C.invoke q = []) :
    queryVectorDatabase C q = (noRelevantInfoMsg, 0) := by
  unfold queryVectorDatabase
  rw [h]

theorem c7_empty_results_witness :
    queryVectorDatabase noCollab qHello = (noRelevantInfoMsg, 0) :=
  c7_empty_results noCollab qHello rfl

/-- C8: when the retriever returns at least one chunk, the query pipeline
joins the retrieved texts in ranking order as the context, builds the one
prompt `context ++ "\nQuestion: " ++ question ++ "\nAnswer:"`, invokes the
generative collaborator exactly once on it, and returns that output
verbatim. -/
theorem c8_with_results (C : Collab) (q r : Str) (rs : List Str)
    (h : C.invoke q = r :: rs) :
    queryVectorDatabase C q =
      (C.llm (joinSep '\n' (r :: rs) ++ promptMid ++ q ++ promptEnd), 1) := by
  unfold queryVectorDatabase
  rw [h]

theorem c8_with_results_witness :
    queryVectorDatabase collabQ qHello =
      (collabQ.llm (joinSep '\n' (docSky :: [docGrass]) ++ promptMid ++ qHello ++ promptEnd),
        1) :=
  c8_with_results collabQ qHello docSky [docGrass] rfl

/-- C9: for non-empty raw text, and any sentence tokenizer returning
contiguous substrings of its input, every sentence produced by
`preprocess_text` is non-empty, whitespace-collapsed (only single spaces as
whitespace, never two adjacent whitespace characters), and a contiguous
substring of the whitespace-collapsed text — so no characters are reordered
within a sentence. -/
theorem c9_normalizer (tok : Str → List Str) (text : Str) (hne : text ≠ [])
    (htok : ∀ s ∈ tok (collapseWs text), isSubstr s (collapseWs text) = true) :
    ∀ s ∈ preprocessText tok text,
      s ≠ [] ∧ sentenceCollapsed s = true ∧ isSubstr s (collapseWs text) = true := by
  intro s hs
  rw [preprocessText, List.mem_filter] at hs
  obtain ⟨hmem, hcont⟩ := hs
  have hsub := htok s hmem
  refine ⟨?_, ?_, hsub⟩
  · intro h
    subst h
    simp [hasContent] at hcont
  · obtain ⟨p, q, hpq⟩ := lem_isSubstr_decomp s (collapseWs text) hsub
    have hws : wsOnlySpace s = true :=
      lem_wsOnly_of_decomp s p q (collapseWs text) hpq (lem_collapse_wsOnly text)
    have hnd : noDoubleWs s = true := by
      have hl : noDoubleWs (p ++ (s ++ q)) = true := by
        rw [← List.append_assoc, hpq]
        exact lem_collapse_ndw text
      exact lem_ndw_append_left s q (lem_ndw_append_right p (s ++ q) hl)
    rw [sentenceCollapsed, Bool.and_eq_true]
    exact ⟨hws, hnd⟩

theorem c9_normalizer_witness :
    "a b".data ≠ [] ∧ sentenceCollapsed "a b".data = true ∧
      isSubstr "a b".data (collapseWs txtAB) = true :=
  c9_normalizer tokId txtAB (by decide) (by decide) "a b".data (by decide)

/-- C10: source routing gives the PDF check precedence — any source whose
lowercased form ends in ".pdf" is routed to the local-PDF branch, and the
result of ingestion does not depend on the web-scraping collaborator at
all, even when the source also starts with "http://" or "https://". -/
theorem c10_pdf_precedence (C : Collab) (f : Str → Str) (st : SysState) (s : Str)
    (h : lowerEndsWithPdf s = true) :
    routeSource s = Route.pdf ∧
    addDocumentsToRetriever { C with extractWeb := f } st s =
      addDocumentsToRetriever C st s := by
  have hr : routeSource s = Route.pdf := by
    simp [routeSource, h]
  refine ⟨hr, ?_⟩
  have he : extractedText { C with extractWeb := f } s = extractedText C s := by
    simp [extractedText, hr]
  unfold addDocumentsToRetriever
  rw [he]
  rfl

theorem c10_pdf_precedence_witness :
    lowerEndsWithPdf srcHttpPdf = true ∧ startsWithHttp srcHttpPdf = true ∧
    (routeSource srcHttpPdf = Route.pdf ∧
      addDocumentsToRetriever { noCollab with extractWeb := fun _ => webTxt }
          stEmpty srcHttpPdf =
        addDocumentsToRetriever noCollab stEmpty srcHttpPdf) :=
  ⟨by decide, by decide,
    c10_pdf_precedence noCollab (fun _ => webTxt) stEmpty srcHttpPdf (by decide)⟩
